import Mathlib

/-!
Verification of the semantic retrieval engine of the mcp-rag-agent
repository: a shallow embedding of `EmbeddingGenerator`, `MongoDBClient`,
`SemanticSearch` and the bulk indexing loop
(`index_documents_from_folder`), with theorems checking the
natural-language specification against the code.

Modelling conventions:
  - Python dict values are the inductive `Value`; a Python dict is an
    association list `Document` queried by key lookup.
  - Embedding vectors (lists of floats) are modelled as `List Int`
    (their numeric content is never computed on by the code under
    verification, only carried).
  - Network services (the OpenAI embeddings endpoint, the MongoDB
    server) are oracle parameters; functions additionally return the
    number of remote invocations they performed where a claim is about
    call counts.
  - Inserted-document ids are modelled as insertion positions.
-/

/-- A Python dict value as it appears in this code base: strings, numbers,
embedding vectors, nested dicts, and None. -/
inductive Value where
  | vNull : Value
  | vStr (s : String) : Value
  | vInt (n : Int) : Value
  | vEmb (e : List Int) : Value
  | vDict (fields : List (String × Value)) : Value

/-- A Python dict with string keys, as an association list. -/
abbrev Document := List (String × Value)

/-- Key lookup, `d[k]` / `d.get(k)`: the first binding of `k` wins. -/
def dictGet (k : String) : Document → Option Value
  | [] => none
  | e :: rest => if e.1 = k then some e.2 else dictGet k rest

/-- Python `d.get(k, default)`. -/
def dictGetD (k : String) (default : Value) (d : Document) : Value :=
  (dictGet k d).getD default

/-- Python `d.pop(k, None)` restricted to its effect on the dict: all
bindings of `k` are removed. -/
def dictPop (k : String) (d : Document) : Document :=
  d.filter (fun e => e.1 != k)

/-- Python `d[k] = v`: `k` now maps to `v` and to nothing else. -/
def dictSet (k : String) (v : Value) (d : Document) : Document :=
  (k, v) :: dictPop k d

/-- Python `str(v)` as far as the code under verification needs it: a
string value prints as itself, other values get some rendering. -/
def pyStr (v : Value) : String :=
  match v with
  | Value.vNull => "None"
  | Value.vStr s => s
  | Value.vInt n => toString n
  | Value.vEmb e => toString e
  | Value.vDict _ => "dict"

/-!
## Embedding provider (`embeddings/embedding_generator.py`)

`EmbeddingGenerator.generate_batch` sends one request for the whole
batch; the service answer `response.data` is a list of items each
carrying its original input `index` and its `embedding`, possibly out
of request order.  The code re-sorts by `index`
(`sorted(response.data, key=lambda x: x.index)`) and projects the
embeddings.  The service is the oracle parameter `svc`; the second
component of the result counts remote invocations.
-/

/-- The sort key of `sorted(response.data, key=lambda x: x.index)`:
compare tagged items by their original input index. -/
def byIndexLe (a b : Nat × List Int) : Bool := decide (a.1 ≤ b.1)

/-- `EmbeddingGenerator.generate_batch(texts)`: empty input short-circuits
to an empty result with no remote call; otherwise one service round-trip,
whose tagged items are sorted by original input index and projected to
their embeddings. -/
def generate_batch (svc : List String → List (Nat × List Int))
    (texts : List String) : List (List Int) × Nat :=
  if texts.isEmpty then ([], 0)
  else
    let response := svc texts
    let sorted_data := response.mergeSort byIndexLe
    (sorted_data.map (fun item => item.2), 1)

/-!
## MongoDB client (`mongodb/client.py`)

The wrapper caches a `MongoClient` handle and a database handle, both
`None` until `connect()`.  Handles are modelled as naturals; `connect`
takes a `fresh` handle to use if it actually opens a connection.
`disconnect` additionally reports which underlying handles it closed
(`client.close()` runs only when a client is cached).
-/

/-- The two cached handles of `MongoDBClient`: `_client` and `_db`. -/
structure MongoDBClient where
  client : Option Nat
  db : Option Nat
deriving DecidableEq, Repr

/-- `MongoDBClient.connect`: opens a connection only when `_client is None`,
caching both the client and the database handle. -/
def connect (fresh : Nat) (c : MongoDBClient) : MongoDBClient :=
  match c.client with
  | some _ => c
  | none => ⟨some fresh, some fresh⟩

/-- `MongoDBClient.disconnect`: closes the cached client when present and
clears both cached handles; the second component lists the handles closed
by this call. -/
def disconnect (c : MongoDBClient) : MongoDBClient × List Nat :=
  match c.client with
  | some h => (⟨none, none⟩, [h])
  | none => (c, [])

/-- The `db` property: reconnects when `_db is None`, then returns the
cached database handle (still `None` in the unreachable half-connected
state). -/
def dbProp (fresh : Nat) (c : MongoDBClient) : MongoDBClient × Option Nat :=
  match c.db with
  | none =>
      let c2 := connect fresh c
      (c2, c2.db)
  | some d => (c, some d)

/-- States `MongoDBClient` can actually reach: the two cached handles are
set and cleared together. -/
def wellFormed (c : MongoDBClient) : Prop :=
  c.client.isSome = c.db.isSome

/-- A client state with both handles cached. -/
def connected (c : MongoDBClient) : Prop :=
  c.client.isSome ∧ c.db.isSome

/-- The server-side database: named collections of documents.  It lives
outside the client and survives `disconnect`. -/
structure Server where
  collections : List (String × List Document)

/-- Contents of a server-side collection (empty when absent, as MongoDB
materializes collections lazily). -/
def serverColl (srv : Server) (name : String) : List Document :=
  (List.lookup name srv.collections).getD []

/-- Replace the contents of a server-side collection. -/
def serverSetColl (srv : Server) (name : String) (docs : List Document) :
    Server :=
  ⟨(name, docs) :: srv.collections.filter (fun e => e.1 != name)⟩

/-- `MongoDBClient.get_collection`: goes through the `db` property, then
`db[collection_name]` (which never fails); the collection handle is its
name. -/
def get_collection (fresh : Nat) (name : String) (c : MongoDBClient) :
    MongoDBClient × Option String :=
  let p := dbProp fresh c
  (p.1, p.2.map (fun _ => name))

/-- `MongoDBClient.list_collections`: `self.db.list_collection_names()`. -/
def list_collections (fresh : Nat) (c : MongoDBClient) (srv : Server) :
    MongoDBClient × Option (List String) :=
  let p := dbProp fresh c
  (p.1, p.2.map (fun _ => srv.collections.map Prod.fst))

/-- `MongoDBClient.create_collection`: `self.db.create_collection(name)`. -/
def create_collection (fresh : Nat) (name : String) (c : MongoDBClient)
    (srv : Server) : (MongoDBClient × Server) × Option String :=
  let p := dbProp fresh c
  match p.2 with
  | none => ((p.1, srv), none)
  | some _ => ((p.1, serverSetColl srv name []), some name)

/-- `MongoDBClient.insert_document`: resolves the collection through
`get_collection`, appends the document, and returns its id (insertion
position). -/
def insert_document_op (fresh : Nat) (name : String) (doc : Document)
    (c : MongoDBClient) (srv : Server) :
    (MongoDBClient × Server) × Option Nat :=
  let p := get_collection fresh name c
  match p.2 with
  | none => ((p.1, srv), none)
  | some coll =>
      let docs := serverColl srv coll
      ((p.1, serverSetColl srv coll (docs ++ [doc])), some docs.length)

/-- `MongoDBClient.find_documents`: `collection.find(query).limit(limit)`;
the query is a predicate on documents. -/
def find_documents_op (fresh : Nat) (name : String) (q : Document → Bool)
    (limit : Nat) (c : MongoDBClient) (srv : Server) :
    MongoDBClient × Option (List Document) :=
  let p := get_collection fresh name c
  (p.1, p.2.map (fun coll => ((serverColl srv coll).filter q).take limit))

/-- `MongoDBClient.delete_documents`: `collection.delete_many(query)`,
returning the number of documents removed. -/
def delete_documents_op (fresh : Nat) (name : String) (q : Document → Bool)
    (c : MongoDBClient) (srv : Server) :
    (MongoDBClient × Server) × Option Nat :=
  let p := get_collection fresh name c
  match p.2 with
  | none => ((p.1, srv), none)
  | some coll =>
      let docs := serverColl srv coll
      let remaining := docs.filter (fun d => !(q d))
      ((p.1, serverSetColl srv coll remaining),
       some (docs.length - remaining.length))

/-!
## Vector search (`mongodb/client.py`, `MongoDBClient.vector_search`)

The aggregation pipeline has one `$vectorSearch` stage (index, path,
queryVector, numCandidates, limit) followed by an `$addFields` stage
adding the similarity score.  The backing engine's behavior — which
records the approximate index matches for the query, with which scores —
is the oracle parameter `hits`, already ranked; the engine truncates
to `limit`.  The pipeline parameters are returned alongside the results
so that the values the code sends can be inspected.
-/

/-- The `$vectorSearch` stage the code builds. -/
structure VectorSearchPipeline where
  index : String
  path : String
  queryVector : List Int
  numCandidates : Nat
  limit : Nat
deriving DecidableEq, Repr

/-- The Python default of the `num_candidates` parameter of
`MongoDBClient.vector_search` (a fixed constant). -/
def vector_search_default_num_candidates : Nat := 100

/-- The Python default of the `limit` parameter of
`SemanticSearch.search`. -/
def search_default_limit : Nat := 10

/-- `MongoDBClient.vector_search`: builds the `$vectorSearch` stage and
returns the ranked matches truncated to `limit`, each with its score
added under the key `score`. -/
def vector_search (hits : List (Document × Int))
    (index_name vector_field : String) (query_vector : List Int)
    (limit num_candidates : Nat) :
    VectorSearchPipeline × List Document :=
  (⟨index_name, vector_field, query_vector, num_candidates, limit⟩,
   (hits.take limit).map (fun p => dictSet "score" (Value.vInt p.2) p.1))

/-!
## Semantic retrieval engine (`embeddings/semantic_search.py`)

`emb` and `embedBatch` stand for the embedding generator; the vector
store is a list of documents, ids are insertion positions; the third
component of `index_document`'s result counts embedding-provider
invocations.
-/

/-- Python `metadata or {}`. -/
def metadataOrEmpty (metadata : Option Value) : Value :=
  match metadata with
  | none => Value.vDict []
  | some m => m

/-- `SemanticSearch.index_document`: embeds the content (one provider
call), builds the vector record, inserts it, and returns
(new store, inserted id, provider invocations). -/
def index_document (emb : String → List Int)
    (vector_field text_field : String) (content : String)
    (metadata : Option Value) (store : List Document) :
    List Document × Nat × Nat :=
  let embedding := emb content
  let document : Document :=
    [(text_field, Value.vStr content),
     (vector_field, Value.vEmb embedding),
     ("metadata", metadataOrEmpty metadata)]
  (store ++ [document], store.length, 1)

/-- The contents extracted by `SemanticSearch.index_documents`:
`[doc.get("content", "") for doc in documents]`. -/
def contentsOf (documents : List Document) : List Value :=
  documents.map (fun doc => dictGetD "content" (Value.vStr "") doc)

/-- One vector record as built inside `SemanticSearch.index_documents`. -/
def mkVectorRecord (text_field vector_field : String) (doc : Document)
    (embedding : List Int) : Document :=
  [(text_field, dictGetD "content" (Value.vStr "") doc),
   (vector_field, Value.vEmb embedding),
   ("metadata", dictGetD "metadata" (Value.vDict []) doc)]

/-- `SemanticSearch.index_documents`: one batched embedding call over the
extracted contents, then `zip(documents, embeddings)` builds the vector
records, which are inserted in order; returns (new store, ids). -/
def index_documents (embedBatch : List Value → List (List Int))
    (text_field vector_field : String) (documents : List Document)
    (store : List Document) : List Document × List Nat :=
  let contents := contentsOf documents
  let embeddings := embedBatch contents
  let docs_with_embeddings :=
    (documents.zip embeddings).map
      (fun p => mkVectorRecord text_field vector_field p.1 p.2)
  (store ++ docs_with_embeddings,
   List.range' store.length docs_with_embeddings.length)

/-- The per-result shaping inside `SemanticSearch.search`:
`result.pop(vector_field, None)` then
`result["_id"] = str(result.get("_id", ""))`. -/
def format_result (vector_field : String) (r : Document) : Document :=
  let r1 := dictPop vector_field r
  dictSet "_id" (Value.vStr (pyStr (dictGetD "_id" (Value.vStr "") r1))) r1

/-- `SemanticSearch.search`: embeds the query, calls
`MongoDBClient.vector_search` without supplying `num_candidates` (so the
Python default applies), and shapes each raw result. -/
def search (emb : String → List Int) (hits : List (Document × Int))
    (vector_field query : String) (limit : Nat) :
    VectorSearchPipeline × List Document :=
  let query_vector := emb query
  let res := vector_search hits "vector_index" vector_field query_vector
    limit vector_search_default_num_candidates
  (res.1, res.2.map (format_result vector_field))

/-- `MongoDBClient.vector_search` as a data operation on the client state:
resolves the collection through `get_collection` (hence through the `db`
property), then runs the aggregation; `rank` is the backing engine's
ranking of the collection's records for this query. -/
def vector_search_op (fresh : Nat) (name : String)
    (rank : List Document → List (Document × Int))
    (index_name vector_field : String) (query_vector : List Int)
    (limit num_candidates : Nat) (c : MongoDBClient) (srv : Server) :
    MongoDBClient × Option (List Document) :=
  let p := get_collection fresh name c
  (p.1, p.2.map (fun coll =>
    (vector_search (rank (serverColl srv coll)) index_name vector_field
      query_vector limit num_candidates).2))

/-!
## Bulk indexing loop (`embeddings/index_documents.py`,
`index_documents_from_folder`)

Per file, the loop body reads the file, skips it when the stripped
content is empty, inserts the document-metadata record, then indexes the
vector record; the whole body is wrapped in `try/except`, which logs the
error and continues with the next file.  Each file carries the outcomes
of its three fallible steps.
-/

/-- Python `s.strip()`: whitespace removed from both ends (written with
structural recursion so that concrete runs reduce). -/
def pyStrip (s : String) : String :=
  String.mk (((s.data.dropWhile Char.isWhitespace).reverse.dropWhile
    Char.isWhitespace).reverse)

/-- One input file with the outcomes of the fallible steps its processing
performs: reading the file, inserting the metadata record, indexing the
vector record. -/
structure FileEntry where
  name : String
  readResult : Except String String
  docInsertResult : Except String Nat
  vecIndexResult : Except String Nat

/-- The `try` body of the loop for one file: `ok none` is the empty-file
skip, `ok (some ids)` a fully indexed file, `error` an exception escaping
to the `except` handler. -/
def processFile (f : FileEntry) : Except String (Option (Nat × Nat)) :=
  match f.readResult with
  | Except.error e => Except.error e
  | Except.ok raw =>
      let content := pyStrip raw
      if content.isEmpty then Except.ok none
      else
        match f.docInsertResult with
        | Except.error e => Except.error e
        | Except.ok docId =>
            match f.vecIndexResult with
            | Except.error e => Except.error e
            | Except.ok vecId => Except.ok (some (docId, vecId))

/-- Whether a file's processing completes and indexes it. -/
def fileIndexed (f : FileEntry) : Bool :=
  match processFile f with
  | Except.ok (some _) => true
  | _ => false

/-- Whether a file's processing raises an exception. -/
def fileFailed (f : FileEntry) : Bool :=
  match processFile f with
  | Except.error _ => true
  | _ => false

/-- The observable outcome of the bulk indexing loop: the success counter
and, in processing order, the files indexed and the files whose errors
were logged. -/
structure FolderRun where
  indexedCount : Nat
  indexedFiles : List String
  failedFiles : List String
deriving DecidableEq, Repr

/-- One iteration of the loop: success bumps the counter, an empty file
is skipped silently, an exception is logged and the loop moves on. -/
def folderStep (acc : FolderRun) (f : FileEntry) : FolderRun :=
  match processFile f with
  | Except.ok (some _) =>
      ⟨acc.indexedCount + 1, acc.indexedFiles ++ [f.name], acc.failedFiles⟩
  | Except.ok none => acc
  | Except.error _ =>
      ⟨acc.indexedCount, acc.indexedFiles, acc.failedFiles ++ [f.name]⟩

/-- `index_documents_from_folder`: the loop over all found files. -/
def index_documents_from_folder (files : List FileEntry) : FolderRun :=
  files.foldl folderStep ⟨0, [], []⟩

/-!
## Theorems
-/

/-- Claim C1, counterexample: `SemanticSearch.index_document` called with
empty content does not fail before reaching the network — at the concrete
input (content `""`, empty store) it invokes the embedding provider once
and the store gains a record, contradicting the claimed zero invocations
and unchanged store. -/
theorem index_document_empty_counterexample :
    (index_document (fun _ => [0]) "embedding" "content" "" none []).2.2 = 1 ∧
    (index_document (fun _ => [0]) "embedding" "content" "" none []).1.length = 1 :=
  ⟨rfl, rfl⟩

/-- Claim C1, amended: there is no empty-content check in
`SemanticSearch.index_document` (no `EmptyContentError` exists in the
code); a call with empty content invokes the embedding provider exactly
once on the empty string and inserts exactly one vector record whose
content field is the empty string, returning its id. -/
theorem index_document_empty_amended (emb : String → List Int)
    (vf tf : String) (md : Option Value) (store : List Document) :
    index_document emb vf tf "" md store =
      (store ++ [[(tf, Value.vStr ""), (vf, Value.vEmb (emb "")),
        ("metadata", metadataOrEmpty md)]], store.length, 1) :=
  rfl

/-- Claim C6: `EmbeddingGenerator.generate_batch` applied to the empty
list returns the empty list and performs zero remote service
invocations. -/
theorem generate_batch_empty (svc : List String → List (Nat × List Int)) :
    generate_batch svc [] = ([], 0) :=
  rfl

/-- Claim C8: `connect` is a no-op when a client handle is already cached
(the handle is kept, not replaced) and is idempotent; `disconnect` closes
exactly the cached underlying handle, clears both cached handles, and a
second `disconnect` is a no-op that closes nothing. -/
theorem connect_disconnect_idempotent (c : MongoDBClient) (f g h : Nat)
    (hwf : wellFormed c) :
    (c.client = some h → connect f c = c) ∧
    connect g (connect f c) = connect f c ∧
    (c.client = some h → (disconnect c).2 = [h]) ∧
    (disconnect c).1.client = none ∧
    (disconnect c).1.db = none ∧
    disconnect (disconnect c).1 = ((disconnect c).1, []) := by
  obtain ⟨cl, db⟩ := c
  simp only [wellFormed] at hwf
  cases cl <;> cases db <;> simp_all [connect, disconnect]

/-- Claim C8, witness: at a connected state with handle 3, `connect`
keeps the state and `disconnect` closes exactly handle 3. -/
theorem connect_disconnect_idempotent_witness :
    connect 1 ⟨some 3, some 3⟩ = ⟨some 3, some 3⟩ ∧
    (disconnect ⟨some 3, some 3⟩).2 = [3] :=
  ⟨(connect_disconnect_idempotent ⟨some 3, some 3⟩ 1 2 3 rfl).1 rfl,
   (connect_disconnect_idempotent ⟨some 3, some 3⟩ 1 2 3 rfl).2.2.1 rfl⟩

/-- Claim C3, counterexample: `SemanticSearch.search` never supplies
`num_candidates`, and the Python default is the fixed constant 100, not a
value coupled to `limit`: the call with `limit = 101` sends
`numCandidates = 100 < limit`, refuting "default ≥ limit for every limit
value". -/
theorem search_num_candidates_counterexample :
    (search (fun _ => []) [] "embedding" "q" 101).1.numCandidates = 100 ∧
    (search (fun _ => []) [] "embedding" "q" 101).1.numCandidates < 101 :=
  ⟨rfl, by decide⟩

/-- Claim C3, amended: the default for `num_candidates` in
`MongoDBClient.vector_search` is the fixed constant 100, and
`SemanticSearch.search` always uses it; hence `num_candidates ≥ limit`
holds for a `search` call exactly when `limit ≤ 100` — in particular for
the default `limit` of 10 — and fails for larger limits. -/
theorem search_num_candidates_default (emb : String → List Int)
    (hits : List (Document × Int)) (vf q : String) (L : Nat)
    (hL : L ≤ vector_search_default_num_candidates) :
    (search emb hits vf q L).1.numCandidates =
      vector_search_default_num_candidates ∧
    L ≤ (search emb hits vf q L).1.numCandidates := by
  exact ⟨rfl, hL⟩

/-- Claim C3, amended, witness: at the default `limit` of 10 the pipeline
sent carries `numCandidates = 100 ≥ 10`. -/
theorem search_num_candidates_default_witness :
    (search (fun _ => []) [] "embedding" "q" search_default_limit).1.numCandidates =
      vector_search_default_num_candidates ∧
    search_default_limit ≤
      (search (fun _ => []) [] "embedding" "q" search_default_limit).1.numCandidates :=
  search_num_candidates_default (fun _ => []) [] "embedding" "q"
    search_default_limit (by decide)

/-- Claim C5: when the backing index matches `M < limit` records,
`SemanticSearch.search` returns exactly `M` results — the result list is
neither padded to `limit` nor an error. -/
theorem search_underfill (emb : String → List Int)
    (hits : List (Document × Int)) (vf q : String) (L M : Nat)
    (hM : hits.length = M) (hML : M < L) :
    (search emb hits vf q L).2.length = M := by
  simp [search, vector_search, List.length_take, hM,
    Nat.min_eq_right (Nat.le_of_lt hML)]

/-- Claim C5, witness: a search with `limit = 50` over an index matching
3 records returns exactly 3 results. -/
theorem search_underfill_witness :
    (search (fun _ => []) [([("a", Value.vInt 1)], 9), ([("b", Value.vInt 2)], 8),
      ([("c", Value.vInt 3)], 7)] "embedding" "q" 50).2.length = 3 :=
  search_underfill (fun _ => [])
    [([("a", Value.vInt 1)], 9), ([("b", Value.vInt 2)], 8),
      ([("c", Value.vInt 3)], 7)] "embedding" "q" 50 3 rfl (by decide)

/-- Removing a key removes every binding of it. -/
theorem dictGet_dictPop_self (k : String) (d : Document) :
    dictGet k (dictPop k d) = none := by
  induction d with
  | nil => rfl
  | cons e rest ih =>
      by_cases he : e.1 = k
      · simpa [dictPop, List.filter_cons, he] using ih
      · simpa [dictPop, List.filter_cons, he, dictGet] using ih

/-- Removing one key leaves lookups of other keys unchanged. -/
theorem dictGet_dictPop_ne (k kp : String) (d : Document) (h : k ≠ kp) :
    dictGet k (dictPop kp d) = dictGet k d := by
  induction d with
  | nil => rfl
  | cons e rest ih =>
      simp only [dictPop, List.filter_cons] at ih ⊢
      by_cases hep : e.1 = kp
      · have hkp : ¬ (kp = k) := fun he => h he.symm
        simp only [hep, bne_self_eq_false, Bool.false_eq_true, if_false,
          dictGet, hkp, ite_false]
        exact ih
      · have hb : (e.1 != kp) = true := by simp [hep]
        simp only [hb, if_true, dictGet]
        by_cases hek : e.1 = k
        · simp [hek]
        · simp only [hek, ite_false]
          exact ih

/-- Looking up the key just assigned returns the assigned value. -/
theorem dictGet_dictSet_self (k : String) (v : Value) (d : Document) :
    dictGet k (dictSet k v d) = some v := by
  simp [dictSet, dictGet]

/-- Assigning one key leaves lookups of other keys of the popped dict. -/
theorem dictGet_dictSet_ne (k ks : String) (v : Value) (d : Document)
    (h : k ≠ ks) :
    dictGet k (dictSet ks v d) = dictGet k d := by
  have hks : ¬ ks = k := fun he => h he.symm
  simp [dictSet, dictGet, hks, dictGet_dictPop_ne k ks d h]

/-- Claim C4: whatever the shape of the raw records the backing vector
search returns, every object `SemanticSearch.search` hands back lacks the
raw embedding-vector field and carries its `_id` as a string (for the
engine's configurations, where the vector field is not named `_id`). -/
theorem search_no_embedding_leakage (emb : String → List Int)
    (hits : List (Document × Int)) (vf q : String) (L : Nat)
    (hvf : vf ≠ "_id") (d : Document)
    (hd : d ∈ (search emb hits vf q L).2) :
    dictGet vf d = none ∧ ∃ s, dictGet "_id" d = some (Value.vStr s) := by
  simp only [search, vector_search, List.mem_map] at hd
  obtain ⟨r, _hr, rfl⟩ := hd
  constructor
  · rw [format_result, dictGet_dictSet_ne _ _ _ _ hvf,
      dictGet_dictPop_self]
  · exact ⟨_, dictGet_dictSet_self _ _ _⟩

/-- Claim C4, witness: a raw backing record containing an embedding
vector and a non-string `_id` comes back without the vector field and
with a string `_id`. -/
theorem search_no_embedding_leakage_witness :
    dictGet "embedding" [("_id", Value.vStr "7"), ("score", Value.vInt 5)] = none ∧
    ∃ s, dictGet "_id" [("_id", Value.vStr "7"), ("score", Value.vInt 5)] =
      some (Value.vStr s) :=
  search_no_embedding_leakage (fun _ => [1])
    [([("embedding", Value.vEmb [1]), ("_id", Value.vInt 7)], 5)]
    "embedding" "q" 1 (by decide)
    [("_id", Value.vStr "7"), ("score", Value.vInt 5)]
    (List.mem_cons_self _ _)

/-- From any reachable state, the `db` property yields a database handle
and leaves both handles cached. -/
theorem dbProp_reconnects (fresh : Nat) (c : MongoDBClient)
    (hwf : wellFormed c) :
    (dbProp fresh c).2.isSome = true ∧
    (dbProp fresh c).1.client.isSome = true ∧
    (dbProp fresh c).1.db.isSome = true := by
  obtain ⟨cl, db⟩ := c
  simp only [wellFormed] at hwf
  cases cl <;> cases db <;> simp_all [dbProp, connect]

/-- `disconnect` always lands in a reachable state. -/
theorem wellFormed_disconnect (c : MongoDBClient) (hwf : wellFormed c) :
    wellFormed (disconnect c).1 := by
  obtain ⟨cl, db⟩ := c
  simp only [wellFormed] at hwf ⊢
  cases cl <;> cases db <;> simp_all [disconnect]

/-- Claim C9: every data operation of `MongoDBClient` reconnects
implicitly: run right after `disconnect`, each of `get_collection`,
`list_collections`, `create_collection`, `insert_document`,
`find_documents`, `delete_documents` and `vector_search` produces a
result (no not-connected error path exists) and leaves the client
connected. -/
theorem mongodb_ops_reconnect (fresh : Nat) (c : MongoDBClient)
    (srv : Server) (name : String) (doc : Document) (q : Document → Bool)
    (L : Nat) (rank : List Document → List (Document × Int))
    (iname vf : String) (qv : List Int) (nc : Nat)
    (hwf : wellFormed c) :
    ((get_collection fresh name (disconnect c).1).2.isSome = true ∧
      connected (get_collection fresh name (disconnect c).1).1) ∧
    ((list_collections fresh (disconnect c).1 srv).2.isSome = true ∧
      connected (list_collections fresh (disconnect c).1 srv).1) ∧
    ((create_collection fresh name (disconnect c).1 srv).2.isSome = true ∧
      connected (create_collection fresh name (disconnect c).1 srv).1.1) ∧
    ((insert_document_op fresh name doc (disconnect c).1 srv).2.isSome = true ∧
      connected (insert_document_op fresh name doc (disconnect c).1 srv).1.1) ∧
    ((find_documents_op fresh name q L (disconnect c).1 srv).2.isSome = true ∧
      connected (find_documents_op fresh name q L (disconnect c).1 srv).1) ∧
    ((delete_documents_op fresh name q (disconnect c).1 srv).2.isSome = true ∧
      connected (delete_documents_op fresh name q (disconnect c).1 srv).1.1) ∧
    ((vector_search_op fresh name rank iname vf qv L nc
        (disconnect c).1 srv).2.isSome = true ∧
      connected (vector_search_op fresh name rank iname vf qv L nc
        (disconnect c).1 srv).1) := by
  have hwf2 := wellFormed_disconnect c hwf
  obtain ⟨h1, h2, h3⟩ := dbProp_reconnects fresh (disconnect c).1 hwf2
  obtain ⟨hdb, hp⟩ : ∃ d, (dbProp fresh (disconnect c).1).2 = some d :=
    Option.isSome_iff_exists.mp h1
  refine ⟨⟨?_, h2, h3⟩, ⟨?_, h2, h3⟩, ⟨?_, ?_⟩, ⟨?_, ?_⟩, ⟨?_, h2, h3⟩,
    ⟨?_, ?_⟩, ⟨?_, h2, h3⟩⟩ <;>
    simp [get_collection, list_collections, create_collection,
      insert_document_op, find_documents_op, delete_documents_op,
      vector_search_op, hp, connected, h2, h3]

/-- Claim C9, witness: after disconnecting a connected client, an
`insert_document` call still succeeds and leaves the client
connected. -/
theorem mongodb_ops_reconnect_witness :
    (insert_document_op 0 "vectors" [] (disconnect ⟨some 5, some 5⟩).1
      ⟨[]⟩).2.isSome = true ∧
    connected (insert_document_op 0 "vectors" []
      (disconnect ⟨some 5, some 5⟩).1 ⟨[]⟩).1.1 :=
  (mongodb_ops_reconnect 0 ⟨some 5, some 5⟩ ⟨[]⟩ "vectors" []
    (fun _ => true) 1 (fun _ => []) "vector_index" "embedding" [] 100
    rfl).2.2.2.1

/-- Indexing past a prefix of an appended list lands in the suffix. -/
theorem getD_append_length_add {α : Type} (l l2 : List α) (i : Nat)
    (d : α) : (l ++ l2).getD (l.length + i) d = l2.getD i d := by
  induction l with
  | nil => simp
  | cons a rest ih =>
      simpa [List.length_cons, Nat.add_right_comm rest.length 1 i] using ih

/-- Element `i` of a mapped zip is the image of the two `i`-th inputs. -/
theorem zip_map_getD {α β γ : Type} (f : α → β → γ) :
    ∀ (as : List α) (bs : List β) (i : Nat) (da : α) (db : β) (dg : γ),
      i < as.length → i < bs.length →
      ((as.zip bs).map (fun p => f p.1 p.2)).getD i dg =
        f (as.getD i da) (bs.getD i db)
  | [], _, i, _, _, _, hi, _ => absurd hi (by simp)
  | _ :: _, [], i, _, _, _, _, hi => absurd hi (by simp)
  | a :: as, b :: bs, 0, _, _, _, _, _ => by simp
  | a :: as, b :: bs, i + 1, da, db, dg, ha, hb => by
      simpa using zip_map_getD f as bs i da db dg
        (Nat.lt_of_succ_lt_succ ha) (Nat.lt_of_succ_lt_succ hb)

/-- Claim C10: `SemanticSearch.index_documents` never errors on an
element lacking the `content` key: the ids keep one-to-one positional
correspondence with the inputs (one id per input, numbered in insertion
order), the store grows by exactly one record per input, and at each
position whose input lacks `content` the inserted record's content field
is the empty string. -/
theorem index_documents_missing_content
    (embedBatch : List Value → List (List Int)) (tf vf : String)
    (documents : List Document) (store : List Document)
    (hlen : (embedBatch (contentsOf documents)).length = documents.length) :
    (index_documents embedBatch tf vf documents store).2 =
      List.range' store.length documents.length ∧
    (index_documents embedBatch tf vf documents store).1.length =
      store.length + documents.length ∧
    (∀ i, i < documents.length →
      dictGet "content" (documents.getD i []) = none →
      dictGet tf ((index_documents embedBatch tf vf documents store).1.getD
        (store.length + i) []) = some (Value.vStr "")) := by
  have hzlen : ((documents.zip (embedBatch (contentsOf documents))).map
      (fun p => mkVectorRecord tf vf p.1 p.2)).length = documents.length := by
    simp [List.length_zip, hlen]
  refine ⟨?_, ?_, ?_⟩
  · simp only [index_documents]
    rw [hzlen]
  · simp [index_documents, hzlen]
  · intro i hi hnone
    simp only [index_documents]
    rw [getD_append_length_add]
    rw [zip_map_getD (mkVectorRecord tf vf) documents
      (embedBatch (contentsOf documents)) i [] [] [] hi (hlen ▸ hi)]
    simp only [mkVectorRecord, dictGet, if_pos]
    rw [dictGetD, hnone]
    rfl

/-- Claim C10, witness: indexing a single document that lacks the
`content` key yields one id, one new record, and that record's content
field is the empty string. -/
theorem index_documents_missing_content_witness :
    dictGet "content" ((index_documents (fun vs => vs.map (fun _ => [0]))
      "content" "embedding" [[("meta", Value.vInt 1)]] []).1.getD 0 []) =
      some (Value.vStr "") :=
  (index_documents_missing_content (fun vs => vs.map (fun _ => [0]))
    "content" "embedding" [[("meta", Value.vInt 1)]] [] rfl).2.2 0
    (by decide) rfl

/-- The indexing loop from any accumulator: every file is classified and
appended to the matching output, independently of the other files. -/
theorem folderStep_foldl (files : List FileEntry) :
    ∀ acc : FolderRun,
      files.foldl folderStep acc =
        ⟨acc.indexedCount + (files.filter fileIndexed).length,
         acc.indexedFiles ++ (files.filter fileIndexed).map FileEntry.name,
         acc.failedFiles ++ (files.filter fileFailed).map FileEntry.name⟩ := by
  induction files with
  | nil => intro acc; simp
  | cons f fs ih =>
      intro acc
      rw [List.foldl_cons, ih]
      cases hpf : processFile f with
      | error e =>
          simp [folderStep, hpf, fileIndexed, fileFailed, List.filter_cons,
            List.append_assoc]
      | ok o =>
          cases o with
          | none =>
              simp [folderStep, hpf, fileIndexed, fileFailed,
                List.filter_cons]
          | some ids =>
              simp [folderStep, hpf, fileIndexed, fileFailed,
                List.filter_cons, List.append_assoc, Nat.add_right_comm,
                Nat.add_assoc]

/-- Claim C7, counterexample: a file whose processing raises no exception
is not necessarily indexed — the loop silently skips a file whose
stripped content is empty, so at the concrete one-file input the file is
non-failing yet the indexed list stays empty. -/
theorem index_folder_counterexample :
    fileFailed ⟨"empty.txt", Except.ok "", Except.ok 0, Except.ok 0⟩ = false ∧
    (index_documents_from_folder
      [⟨"empty.txt", Except.ok "", Except.ok 0, Except.ok 0⟩]).indexedFiles = [] := by
  constructor
  · decide
  · decide

/-- Claim C7, amended: the loop classifies every file independently —
each file whose processing raises an exception is logged into the failed
list and skipped, each file that processes completely (in particular
every non-failing file whose stripped content is non-empty) is indexed,
and empty files are skipped without being treated as failures; no
failure aborts the remaining files. -/
theorem index_folder_error_isolation (files : List FileEntry) :
    index_documents_from_folder files =
      ⟨(files.filter fileIndexed).length,
       (files.filter fileIndexed).map FileEntry.name,
       (files.filter fileFailed).map FileEntry.name⟩ := by
  rw [index_documents_from_folder, folderStep_foldl files ⟨0, [], []⟩]
  simp

/-- Sorting by original input index recovers the input enumeration: a
permutation of `embs.enum` merge-sorted by index is `embs.enum` itself
(the indices are strictly increasing there, so the sorted order is
unique). -/
theorem sort_perm_enum (resp : List (Nat × List Int))
    (embs : List (List Int)) (hperm : resp.Perm embs.enum) :
    resp.mergeSort byIndexLe = embs.enum := by
  have hperm2 : (resp.mergeSort byIndexLe).Perm embs.enum :=
    (List.mergeSort_perm resp byIndexLe).trans hperm
  have htrans : ∀ (a b c : Nat × List Int),
      byIndexLe a b → byIndexLe b c → byIndexLe a c := by
    intro a b c hab hbc
    simp only [byIndexLe, decide_eq_true_eq] at hab hbc ⊢
    exact le_trans hab hbc
  have htotal : ∀ (a b : Nat × List Int), byIndexLe a b || byIndexLe b a := by
    intro a b
    simp only [byIndexLe, Bool.or_eq_true, decide_eq_true_eq]
    exact Nat.le_total a.1 b.1
  have hsorted := List.sorted_mergeSort htrans htotal resp
  have hs_le : (resp.mergeSort byIndexLe).Pairwise
      (fun a b => a.1 ≤ b.1) := by
    refine hsorted.imp ?_
    intro a b h
    simpa [byIndexLe, decide_eq_true_eq] using h
  have henum_lt : embs.enum.Pairwise
      (fun a b : Nat × List Int => a.1 < b.1) := by
    rw [List.pairwise_iff_getElem]
    intro i j hi hj hij
    simp only [List.getElem_enum]
    exact hij
  have henum_ne : embs.enum.Pairwise
      (fun a b : Nat × List Int => a.1 ≠ b.1) :=
    henum_lt.imp (fun h => Nat.ne_of_lt h)
  have hne : (resp.mergeSort byIndexLe).Pairwise
      (fun a b : Nat × List Int => a.1 ≠ b.1) :=
    (hperm2.pairwise_iff (fun h => Ne.symm h)).mpr henum_ne
  have hs_lt : (resp.mergeSort byIndexLe).Pairwise
      (fun a b : Nat × List Int => a.1 < b.1) :=
    (hs_le.and hne).imp (fun h => Nat.lt_of_le_of_ne h.1 h.2)
  haveI : IsAntisymm (Nat × List Int) (fun a b => a.1 < b.1) :=
    ⟨fun a b h1 h2 => absurd h2 (Nat.lt_asymm h1)⟩
  exact List.eq_of_perm_of_sorted hperm2 hs_lt henum_lt

/-- Claim C2: whenever the underlying service answers a batch of `N`
texts with the per-item embeddings tagged by original input index, in any
order (any permutation of the tagged results), `generate_batch` returns
exactly the embeddings in input order: `result[i]` is the embedding the
service produced for `texts[i]`. -/
theorem generate_batch_order_preservation
    (svc : List String → List (Nat × List Int)) (texts : List String)
    (embs : List (List Int)) (hlen : embs.length = texts.length)
    (hperm : (svc texts).Perm embs.enum) :
    (generate_batch svc texts).1 = embs := by
  by_cases hempty : texts.isEmpty
  · have ht : texts = [] := List.isEmpty_iff.mp hempty
    subst ht
    have he : embs = [] := List.length_eq_zero.mp hlen
    subst he
    rfl
  · simp only [generate_batch, hempty, Bool.false_eq_true, if_false]
    rw [sort_perm_enum (svc texts) embs hperm]
    exact List.enum_map_snd embs

/-- Claim C2, witness: a service answering two texts with the tagged
results swapped still yields the embeddings in input order. -/
theorem generate_batch_order_witness :
    (generate_batch (fun _ => [(1, [20]), (0, [10])]) ["a", "b"]).1 =
      [[10], [20]] :=
  generate_batch_order_preservation (fun _ => [(1, [20]), (0, [10])])
    ["a", "b"] [[10], [20]] rfl (List.Perm.swap (0, [10]) (1, [20]) [])
